import Mathlib

/-!
Verification of the route-guide service core
(`src/route_guide/route_guide_server.cc`).

The embedding follows the source file:
* `Point`, `Feature`, `Rectangle`, `RouteNote`, `RouteSummary` mirror the
  protobuf messages used by the handlers (coordinates are scaled
  fixed-point integers, so `Int` fields; equality is exact field equality).
* `GetFeatureName`, `GetFeature`, `ListFeatures`, `recordRoute`,
  `routeChatStep`/`routeChatSession` mirror the free function and the four
  handler bodies; the `for`/`while` loops become structural recursion and
  status returns become an explicit `RpcStatus` value.
* The floating-point arithmetic of `ConvertToRadians` and `GetDistance`
  is embedded over the real numbers (idealized exact arithmetic with the
  same formulas and the same literal constants as the source); `atan2`
  models the C library function on the reals.
* Wall-clock elapsed time in `RecordRoute` and the transport layer
  (stream handles, mutex, logging) are external effects and are not part
  of the embedded state: the mutex makes each scan+append of `RouteChat`
  atomic, so a step function on the note log models it.
-/

namespace RouteGuideSrv

/-- Protobuf `routeguide.Point`: latitude/longitude in degrees ·10^7. -/
structure Point where
  latitude : Int
  longitude : Int
  deriving DecidableEq, Repr

/-- Protobuf `routeguide.Feature`: a (possibly empty) name and a location. -/
structure Feature where
  name : String
  location : Point
  deriving DecidableEq, Repr

/-- Protobuf `routeguide.Rectangle`: two corners with no ordering guarantee. -/
structure Rectangle where
  lo : Point
  hi : Point
  deriving DecidableEq, Repr

/-- Protobuf `routeguide.RouteNote`: a location plus a free-text message. -/
structure RouteNote where
  location : Point
  message : String
  deriving DecidableEq, Repr

/-- Protobuf `routeguide.RouteSummary` as filled in by `RecordRoute`.
`elapsed_time` is wall-clock time, external to the embedded state, and is
omitted. -/
structure RouteSummary where
  point_count : Nat
  feature_count : Nat
  distance : Int
  deriving DecidableEq, Repr

/-- The gRPC status returned by a handler; the server only ever builds
`Status::OK` (a `NOT_FOUND` alternative appears only in a comment). -/
inductive RpcStatus where
  | ok
  | notFound (msg : String)
  deriving DecidableEq, Repr

/-- Two points are equal iff both scaled coordinates agree. -/
theorem Point.eq_iff_coords {p q : Point} :
    p.latitude = q.latitude ∧ p.longitude = q.longitude ↔ p = q := by
  cases p; cases q; simp_all

/-- `GetFeatureName`: linear scan of the catalog, returning the name of the
first feature whose location matches both coordinates, else `""`. -/
def GetFeatureName (point : Point) : List Feature → String
  | [] => ""
  | f :: rest =>
    if f.location.latitude = point.latitude ∧
        f.location.longitude = point.longitude then
      f.name
    else
      GetFeatureName point rest

/-- `RouteGuideImpl::GetFeature`: sets the feature name from
`GetFeatureName`, copies the request point into the location, and returns
`Status::OK`. -/
def GetFeature (point : Point) (feature_list : List Feature) :
    RpcStatus × Feature :=
  (RpcStatus.ok,
   { name := GetFeatureName point feature_list, location := point })

/-- The `for` loop of `RouteGuideImpl::ListFeatures`: emit, in catalog
order, every feature inside the closed bounds. -/
def listFeaturesLoop (left right top bottom : Int) : List Feature → List Feature
  | [] => []
  | f :: rest =>
    if f.location.longitude ≥ left ∧ f.location.longitude ≤ right ∧
        f.location.latitude ≥ bottom ∧ f.location.latitude ≤ top then
      f :: listFeaturesLoop left right top bottom rest
    else
      listFeaturesLoop left right top bottom rest

/-- `RouteGuideImpl::ListFeatures`: normalize the two corners with
per-axis `min`/`max`, then stream the features inside the bounds. -/
def ListFeatures (rectangle : Rectangle) (feature_list : List Feature) :
    List Feature :=
  let lo := rectangle.lo
  let hi := rectangle.hi
  let left := min lo.longitude hi.longitude
  let right := max lo.longitude hi.longitude
  let top := max lo.latitude hi.latitude
  let bottom := min lo.latitude hi.latitude
  listFeaturesLoop left right top bottom feature_list

/-- The normalized per-axis bounds `(left, right, top, bottom)` computed at
the head of `ListFeatures`. -/
structure RectBounds where
  left : Int
  right : Int
  top : Int
  bottom : Int
  deriving DecidableEq, Repr

/-- The normalization performed by `ListFeatures` on its rectangle. -/
def normalizeBounds (r : Rectangle) : RectBounds :=
  { left := min r.lo.longitude r.hi.longitude
    right := max r.lo.longitude r.hi.longitude
    top := max r.lo.latitude r.hi.latitude
    bottom := min r.lo.latitude r.hi.latitude }

/-- The normalized bounds read back as a rectangle
(`lo = (bottom, left)`, `hi = (top, right)`). -/
def normalizeRect (r : Rectangle) : Rectangle :=
  let b := normalizeBounds r
  { lo := { latitude := b.bottom, longitude := b.left }
    hi := { latitude := b.top, longitude := b.right } }

/-- Membership in the closed normalized bounds (the loop condition of
`ListFeatures`, stated with the normalized names). -/
def inBounds (b : RectBounds) (p : Point) : Prop :=
  b.left ≤ p.longitude ∧ p.longitude ≤ b.right ∧
    b.bottom ≤ p.latitude ∧ p.latitude ≤ b.top

instance (b : RectBounds) (p : Point) : Decidable (inBounds b p) := by
  unfold inBounds; infer_instance

/-- The inner `for` loop of `RouteGuideImpl::RouteChat`: write back, in
append order, every stored note at the inbound note's exact location. -/
def replayLoop (note : RouteNote) : List RouteNote → List RouteNote
  | [] => []
  | n :: rest =>
    if n.location.latitude = note.location.latitude ∧
        n.location.longitude = note.location.longitude then
      n :: replayLoop note rest
    else
      replayLoop note rest

/-- One `while` iteration of `RouteGuideImpl::RouteChat` under the mutex:
scan the whole log for location matches (writing them back), then
`push_back` the inbound note.  Returns (notes written back, new log). -/
def routeChatStep (received_notes : List RouteNote) (note : RouteNote) :
    List RouteNote × List RouteNote :=
  (replayLoop note received_notes, received_notes ++ [note])

/-- A whole `RouteChat` session: fold `routeChatStep` over the inbound
stream.  Returns (all notes written back to this caller, final log). -/
def routeChatSession (received_notes : List RouteNote) :
    List RouteNote → List RouteNote × List RouteNote
  | [] => ([], received_notes)
  | note :: rest =>
    let step := routeChatStep received_notes note
    let tail := routeChatSession step.2 rest
    (step.1 ++ tail.1, tail.2)

/-- `ConvertToRadians`: the source multiplies by the literal `3.1415926`
and divides by `180` (idealized over ℝ). -/
noncomputable def ConvertToRadians (num : ℝ) : ℝ :=
  num * 3.1415926 / 180

/-- The C library `atan2`, modelled on the reals (quadrant-correct
arctangent; `GetDistance` only reaches the non-negative-`x` cases). -/
noncomputable def atan2 (y x : ℝ) : ℝ :=
  if 0 < x then Real.arctan (y / x)
  else if x < 0 then
    if 0 ≤ y then Real.arctan (y / x) + Real.pi
    else Real.arctan (y / x) - Real.pi
  else if 0 < y then Real.pi / 2
  else if y < 0 then -(Real.pi / 2)
  else 0

/-- `GetDistance`: scale both points down by `kCoordFactor`, convert to
radians, and apply the haversine formula with Earth radius 6 371 000 m
(idealized over ℝ, same formulas and literals as the source). -/
noncomputable def GetDistance (start stop : Point) : ℝ :=
  let kCoordFactor : ℝ := 10000000.0
  let lat_1 := (start.latitude : ℝ) / kCoordFactor
  let lat_2 := (stop.latitude : ℝ) / kCoordFactor
  let lon_1 := (start.longitude : ℝ) / kCoordFactor
  let lon_2 := (stop.longitude : ℝ) / kCoordFactor
  let lat_rad_1 := ConvertToRadians lat_1
  let lat_rad_2 := ConvertToRadians lat_2
  let delta_lat_rad := ConvertToRadians (lat_2 - lat_1)
  let delta_lon_rad := ConvertToRadians (lon_2 - lon_1)
  let a := Real.sin (delta_lat_rad / 2) ^ 2 +
    Real.cos lat_rad_1 * Real.cos lat_rad_2 * Real.sin (delta_lon_rad / 2) ^ 2
  let c := 2 * atan2 (Real.sqrt a) (Real.sqrt (1 - a))
  let R : ℝ := 6371000
  R * c

/-- `static_cast<long>` on a real value: truncation toward zero. -/
noncomputable def truncToInt (x : ℝ) : Int :=
  if 0 ≤ x then ⌊x⌋ else ⌈x⌉

/-- The `while (reader->Read(&point))` loop of
`RouteGuideImpl::RecordRoute`, carrying the four mutable locals
`point_count`, `feature_count`, `distance`, `previous`. -/
noncomputable def recordRouteLoop (feature_list : List Feature) :
    List Point → Nat → Nat → ℝ → Point → Nat × Nat × ℝ
  | [], point_count, feature_count, distance, _ =>
    (point_count, feature_count, distance)
  | point :: rest, point_count, feature_count, distance, previous =>
    let point_count' := point_count + 1
    let feature_count' :=
      if GetFeatureName point feature_list ≠ "" then feature_count + 1
      else feature_count
    let distance' :=
      if point_count' ≠ 1 then distance + GetDistance previous point
      else distance
    recordRouteLoop feature_list rest point_count' feature_count' distance' point

/-- `RouteGuideImpl::RecordRoute`: consume the point stream, then fill the
summary; `distance` is truncated to an integer.  `previous` starts as a
default-constructed `Point` (never read before being written, since the
first iteration skips the distance update). -/
noncomputable def recordRoute (feature_list : List Feature)
    (pts : List Point) : RouteSummary :=
  let r := recordRouteLoop feature_list pts 0 0 0 ⟨0, 0⟩
  { point_count := r.1, feature_count := r.2.1, distance := truncToInt r.2.2 }

/-- The spec's cumulative route distance: sum of `GetDistance` between
each point and its immediate predecessor, the first point contributing 0. -/
noncomputable def pathDistance : List Point → ℝ
  | [] => 0
  | [_] => 0
  | a :: b :: rest => GetDistance a b + pathDistance (b :: rest)

/-! ### Helper lemmas -/

/-- `GetFeatureName` is the name of the first catalog entry at the point,
or `""` when `find?` comes up empty. -/
theorem getFeatureName_eq_find (point : Point) (catalog : List Feature) :
    GetFeatureName point catalog =
      match catalog.find? (fun f => decide (f.location = point)) with
      | some f => f.name
      | none => "" := by
  induction catalog with
  | nil => rfl
  | cons f rest ih =>
    by_cases h : f.location.latitude = point.latitude ∧
        f.location.longitude = point.longitude
    · have hp : f.location = point := Point.eq_iff_coords.mp h
      simp [GetFeatureName, h, List.find?, hp]
    · have hp : ¬ f.location = point := fun he => h (Point.eq_iff_coords.mpr he)
      simp [GetFeatureName, h, List.find?, hp, ih]

/-- The replay loop is the in-order filter of the log at the note's point. -/
theorem replayLoop_eq_filter (note : RouteNote) (log : List RouteNote) :
    replayLoop note log =
      log.filter (fun n => decide (n.location = note.location)) := by
  induction log with
  | nil => rfl
  | cons n rest ih =>
    by_cases h : n.location.latitude = note.location.latitude ∧
        n.location.longitude = note.location.longitude
    · have hp : n.location = note.location := Point.eq_iff_coords.mp h
      simp [replayLoop, h, hp, List.filter, ih]
    · have hp : ¬ n.location = note.location := fun he =>
        h (Point.eq_iff_coords.mpr he)
      simp [replayLoop, h, hp, List.filter, ih]

/-- A whole chat session appends exactly its inbound notes, in order. -/
theorem routeChatSession_log (inbound log : List RouteNote) :
    (routeChatSession log inbound).2 = log ++ inbound := by
  induction inbound generalizing log with
  | nil => simp [routeChatSession]
  | cons note rest ih =>
    simp [routeChatSession, routeChatStep, ih]

/-- The `ListFeatures` loop is the in-order filter by the bounds test. -/
theorem listFeaturesLoop_eq_filter (left right top bottom : Int)
    (l : List Feature) :
    listFeaturesLoop left right top bottom l =
      l.filter (fun f =>
        decide (inBounds ⟨left, right, top, bottom⟩ f.location)) := by
  induction l with
  | nil => rfl
  | cons f rest ih =>
    by_cases h : f.location.longitude ≥ left ∧ f.location.longitude ≤ right ∧
        f.location.latitude ≥ bottom ∧ f.location.latitude ≤ top
    · have hb : inBounds ⟨left, right, top, bottom⟩ f.location := by
        unfold inBounds; simp only [ge_iff_le] at h; tauto
      simp [listFeaturesLoop, h, hb, List.filter, ih]
    · have hb : ¬ inBounds ⟨left, right, top, bottom⟩ f.location := by
        unfold inBounds; simp only [ge_iff_le] at h; tauto
      simp [listFeaturesLoop, h, hb, List.filter, ih]

/-- Unrolled invariant of the `RecordRoute` loop: once at least one point
has been consumed, the loop adds the remaining counts and the leg
distances starting from `previous`. -/
theorem recordRouteLoop_spec (feature_list : List Feature) (pts : List Point)
    (pc fc : Nat) (d : ℝ) (prev : Point) (h : pc ≠ 0) :
    recordRouteLoop feature_list pts pc fc d prev =
      (pc + pts.length,
       fc + pts.countP (fun p => decide (GetFeatureName p feature_list ≠ "")),
       d + pathDistance (prev :: pts)) := by
  induction pts generalizing pc fc d prev with
  | nil => simp [recordRouteLoop, pathDistance]
  | cons p rest ih =>
    have h1 : pc + 1 ≠ 1 := by omega
    have e1 : pc + 1 + rest.length = pc + (p :: rest).length := by
      simp only [List.length_cons]; omega
    have e3 : d + GetDistance prev p + pathDistance (p :: rest) =
        d + pathDistance (prev :: p :: rest) := by
      simp only [pathDistance]; ring
    simp only [recordRouteLoop, if_pos h1]
    by_cases hp : GetFeatureName p feature_list ≠ ""
    · have e2 : fc + 1 +
          rest.countP (fun q => decide (GetFeatureName q feature_list ≠ "")) =
          fc + (p :: rest).countP
            (fun q => decide (GetFeatureName q feature_list ≠ "")) := by
        rw [List.countP_cons]
        simp only [hp, decide_eq_true_eq]
        simp [hp]
        omega
      rw [if_pos hp, ih (pc + 1) (fc + 1) (d + GetDistance prev p) p (by omega),
        e1, e2, e3]
    · have e2 : fc +
          rest.countP (fun q => decide (GetFeatureName q feature_list ≠ "")) =
          fc + (p :: rest).countP
            (fun q => decide (GetFeatureName q feature_list ≠ "")) := by
        rw [List.countP_cons]
        simp [hp]
      rw [if_neg hp, ih (pc + 1) fc (d + GetDistance prev p) p (by omega),
        e1, e2, e3]

/-- `recordRoute` in closed form: length, match count, truncated sum of
leg distances. -/
theorem recordRoute_eq (feature_list : List Feature) (pts : List Point) :
    recordRoute feature_list pts =
      { point_count := pts.length,
        feature_count :=
          pts.countP (fun p => decide (GetFeatureName p feature_list ≠ "")),
        distance := truncToInt (pathDistance pts) } := by
  cases pts with
  | nil => simp [recordRoute, recordRouteLoop, pathDistance, truncToInt]
  | cons p rest =>
    have h1 : ¬ ((0 : Nat) + 1 ≠ 1) := by omega
    have e1 : 1 + rest.length = (p :: rest).length := by
      simp only [List.length_cons]; omega
    have e3 : truncToInt ((0 : ℝ) + pathDistance (p :: rest)) =
        truncToInt (pathDistance (p :: rest)) := by rw [zero_add]
    simp only [recordRoute, recordRouteLoop, if_neg h1]
    by_cases hp : GetFeatureName p feature_list ≠ ""
    · have e2 : 1 +
          rest.countP (fun q => decide (GetFeatureName q feature_list ≠ "")) =
          (p :: rest).countP
            (fun q => decide (GetFeatureName q feature_list ≠ "")) := by
        rw [List.countP_cons]
        simp [hp]
        omega
      rw [if_pos hp, recordRouteLoop_spec feature_list rest 1 (0 + 1) 0 p
        (by omega)]
      simp only [Nat.zero_add]
      rw [e1, e2, e3]
    · have e2 : (0 : Nat) +
          rest.countP (fun q => decide (GetFeatureName q feature_list ≠ "")) =
          (p :: rest).countP
            (fun q => decide (GetFeatureName q feature_list ≠ "")) := by
        rw [List.countP_cons]
        simp [hp]
      rw [if_neg hp, recordRouteLoop_spec feature_list rest 1 0 0 p (by omega),
        e1, e2, e3]

/-! ### GeoMath lemmas -/

/-- `ConvertToRadians` is linear, so it maps `0` to `0`. -/
theorem convertToRadians_zero : ConvertToRadians 0 = 0 := by
  unfold ConvertToRadians; ring

/-- Squared sine of a half-angle is insensitive to the sign of the
difference fed to `ConvertToRadians`. -/
theorem sin_half_sq_swap (x y : ℝ) :
    Real.sin (ConvertToRadians (x - y) / 2) ^ 2 =
      Real.sin (ConvertToRadians (y - x) / 2) ^ 2 := by
  have h : ConvertToRadians (x - y) = -ConvertToRadians (y - x) := by
    unfold ConvertToRadians; ring
  rw [h, neg_div, Real.sin_neg, neg_sq]

/-- The haversine intermediate `a` is symmetric in the two points. -/
theorem hav_a_symm (la lb loa lob : ℝ) :
    Real.sin (ConvertToRadians (lb - la) / 2) ^ 2 +
      Real.cos (ConvertToRadians la) * Real.cos (ConvertToRadians lb) *
        Real.sin (ConvertToRadians (lob - loa) / 2) ^ 2 =
    Real.sin (ConvertToRadians (la - lb) / 2) ^ 2 +
      Real.cos (ConvertToRadians lb) * Real.cos (ConvertToRadians la) *
        Real.sin (ConvertToRadians (loa - lob) / 2) ^ 2 := by
  rw [sin_half_sq_swap lb la, sin_half_sq_swap lob loa,
    mul_comm (Real.cos (ConvertToRadians la)) (Real.cos (ConvertToRadians lb))]

/-- `GetDistance` of a point with itself is exactly zero. -/
theorem getDistance_self (p : Point) : GetDistance p p = 0 := by
  simp only [GetDistance]
  rw [sub_self, sub_self, convertToRadians_zero]
  norm_num [Real.sin_zero, Real.sqrt_zero, Real.sqrt_one, atan2,
    Real.arctan_zero]

/-- `GetDistance` is symmetric in its two points. -/
theorem getDistance_comm (a b : Point) : GetDistance a b = GetDistance b a := by
  simp only [GetDistance]
  rw [hav_a_symm ((a.latitude : ℝ) / 10000000.0)
    ((b.latitude : ℝ) / 10000000.0) ((a.longitude : ℝ) / 10000000.0)
    ((b.longitude : ℝ) / 10000000.0)]

/-! ### Claim theorems -/

/-- Claim C1: for every inbound note processed by `RouteChat`, the handler
writes back exactly the stored notes whose point equals the inbound
note's point (both coordinates), in append order, computed before the
inbound note is appended; the inbound note is appended afterward and (not
having been in the log) is never among the notes written back in this
pass. -/
theorem routeChat_replays_prior_matching_notes
    (log : List RouteNote) (note : RouteNote) (h : note ∉ log) :
    (routeChatStep log note).1 =
      log.filter (fun n => decide (n.location = note.location)) ∧
    (routeChatStep log note).2 = log ++ [note] ∧
    note ∉ (routeChatStep log note).1 := by
  refine ⟨replayLoop_eq_filter note log, rfl, ?_⟩
  intro hm
  have hm' : note ∈ log.filter (fun n => decide (n.location = note.location)) := by
    rwa [show (routeChatStep log note).1 = replayLoop note log from rfl,
      replayLoop_eq_filter] at hm
  exact h (List.mem_of_mem_filter hm')

theorem routeChat_replays_prior_matching_notes_witness :
    ((⟨⟨0, 0⟩, "N2"⟩ : RouteNote) ∉ [(⟨⟨0, 0⟩, "N1"⟩ : RouteNote)]) ∧
    ((routeChatStep [⟨⟨0, 0⟩, "N1"⟩] ⟨⟨0, 0⟩, "N2"⟩).1 =
        [(⟨⟨0, 0⟩, "N1"⟩ : RouteNote)].filter
          (fun n => decide (n.location = RouteNote.location ⟨⟨0, 0⟩, "N2"⟩)) ∧
      (routeChatStep [⟨⟨0, 0⟩, "N1"⟩] ⟨⟨0, 0⟩, "N2"⟩).2 =
        [⟨⟨0, 0⟩, "N1"⟩] ++ [(⟨⟨0, 0⟩, "N2"⟩ : RouteNote)] ∧
      (⟨⟨0, 0⟩, "N2"⟩ : RouteNote) ∉
        (routeChatStep [⟨⟨0, 0⟩, "N1"⟩] ⟨⟨0, 0⟩, "N2"⟩).1) :=
  ⟨by decide,
   routeChat_replays_prior_matching_notes [⟨⟨0, 0⟩, "N1"⟩] ⟨⟨0, 0⟩, "N2"⟩
     (by decide)⟩

/-- Claim C2: `RecordRoute` returns exactly one summary whose
`point_count` is the number of points received, whose `feature_count`
counts the points with a non-empty `GetFeatureName`, and whose `distance`
is the sum of leg distances (first point contributing zero) truncated to
an integer; a one-point stream gives count 1 and distance 0, an empty
stream gives the all-zero summary. -/
theorem recordRoute_summary_closed_form (catalog : List Feature)
    (pts : List Point) (p : Point) :
    recordRoute catalog pts =
      { point_count := pts.length,
        feature_count :=
          pts.countP (fun q => decide (GetFeatureName q catalog ≠ "")),
        distance := truncToInt (pathDistance pts) } ∧
    (recordRoute catalog [p]).point_count = 1 ∧
    (recordRoute catalog [p]).distance = 0 ∧
    recordRoute catalog [] = { point_count := 0, feature_count := 0, distance := 0 } := by
  refine ⟨recordRoute_eq catalog pts, ?_, ?_, ?_⟩
  · rw [recordRoute_eq]
    rfl
  · rw [recordRoute_eq]
    simp [pathDistance, truncToInt]
  · rw [recordRoute_eq]
    simp [pathDistance, truncToInt]

/-- Claim C3: `GetFeature` always succeeds (`Status::OK`), the returned
feature's name is `GetFeatureName` at the request point, and the returned
feature's location echoes the request point. -/
theorem getFeature_always_ok_and_echoes (point : Point)
    (catalog : List Feature) :
    (GetFeature point catalog).1 = RpcStatus.ok ∧
    (GetFeature point catalog).2.name = GetFeatureName point catalog ∧
    (GetFeature point catalog).2.location = point :=
  ⟨rfl, rfl, rfl⟩

/-- Claim C4: `ListFeatures` emits the same sequence when the rectangle's
corners are swapped; the per-axis min/max normalization is symmetric
under swapping `lo`/`hi` and idempotent. -/
theorem listFeatures_corner_swap_invariant (lo hi : Point)
    (catalog : List Feature) (r : Rectangle) :
    ListFeatures ⟨lo, hi⟩ catalog = ListFeatures ⟨hi, lo⟩ catalog ∧
    normalizeBounds ⟨lo, hi⟩ = normalizeBounds ⟨hi, lo⟩ ∧
    normalizeRect (normalizeRect r) = normalizeRect r := by
  refine ⟨?_, ?_, ?_⟩
  · simp only [ListFeatures]
    rw [min_comm lo.longitude hi.longitude, max_comm lo.longitude hi.longitude,
      max_comm lo.latitude hi.latitude, min_comm lo.latitude hi.latitude]
  · simp only [normalizeBounds, RectBounds.mk.injEq]
    refine ⟨min_comm _ _, max_comm _ _, max_comm _ _, min_comm _ _⟩
  · simp only [normalizeRect, normalizeBounds, Rectangle.mk.injEq,
      Point.mk.injEq]
    omega

/-- Claim C5: `ListFeatures` emits exactly the catalog entries whose
longitude lies in `[left, right]` and latitude in `[bottom, top]` of the
normalized bounds, in catalog order, one emission per qualifying entry
(an in-order filter of the catalog). -/
theorem listFeatures_eq_filter_inBounds (rectangle : Rectangle)
    (catalog : List Feature) :
    ListFeatures rectangle catalog =
      catalog.filter
        (fun f => decide (inBounds (normalizeBounds rectangle) f.location)) := by
  simp only [ListFeatures, normalizeBounds]
  rw [listFeaturesLoop_eq_filter]

/-- Claim C6: `GetFeatureName` scans the catalog in order and returns the
name of the first feature located exactly at the point (earliest entry
wins on duplicates), and the empty string when no entry matches. -/
theorem getFeatureName_first_match_or_empty (point : Point)
    (catalog : List Feature) :
    GetFeatureName point catalog =
      match catalog.find? (fun f => decide (f.location = point)) with
      | some f => f.name
      | none => "" :=
  getFeatureName_eq_find point catalog

/-- Claim C9: the note log is append-only: one `RouteChat` iteration
extends the log by exactly its inbound note at the end, and a whole
session extends the starting log by exactly its inbound notes in order,
so every earlier log state is a prefix of every later one. -/
theorem noteLog_append_only (log : List RouteNote) (note : RouteNote)
    (inbound : List RouteNote) :
    (routeChatStep log note).2 = log ++ [note] ∧
    (routeChatSession log inbound).2 = log ++ inbound :=
  ⟨rfl, routeChatSession_log inbound log⟩

/-- Claim C10: if the first catalog entry at a point has an empty name,
`GetFeatureName` returns `""`, indistinguishable from the point being
absent: `GetFeature` returns an empty-named feature and `RecordRoute`
does not count the point in `feature_count`, although a matching catalog
entry exists. -/
theorem empty_name_indistinguishable_from_absent (point : Point)
    (catalog : List Feature) (pts : List Point) (f : Feature)
    (h1 : catalog.find? (fun g => decide (g.location = point)) = some f)
    (h2 : f.name = "") :
    GetFeatureName point catalog = "" ∧
    (GetFeature point catalog).2.name = "" ∧
    (recordRoute catalog (pts ++ [point])).feature_count =
      (recordRoute catalog pts).feature_count := by
  have hn : GetFeatureName point catalog = "" := by
    rw [getFeatureName_eq_find, h1]
    exact h2
  refine ⟨hn, hn, ?_⟩
  rw [recordRoute_eq, recordRoute_eq]
  simp [List.countP_append, List.countP_cons, hn]

theorem empty_name_indistinguishable_from_absent_witness :
    ([({ name := "", location := ⟨1, 2⟩ } : Feature)].find?
        (fun g => decide (g.location = (⟨1, 2⟩ : Point))) =
      some { name := "", location := ⟨1, 2⟩ }) ∧
    (Feature.name { name := "", location := ⟨1, 2⟩ } = "") ∧
    (GetFeatureName ⟨1, 2⟩ [{ name := "", location := ⟨1, 2⟩ }] = "" ∧
      (GetFeature ⟨1, 2⟩ [{ name := "", location := ⟨1, 2⟩ }]).2.name = "" ∧
      (recordRoute [{ name := "", location := ⟨1, 2⟩ }]
          ([] ++ [(⟨1, 2⟩ : Point)])).feature_count =
        (recordRoute [{ name := "", location := ⟨1, 2⟩ }] []).feature_count) :=
  ⟨by decide, rfl,
   empty_name_indistinguishable_from_absent ⟨1, 2⟩
     [{ name := "", location := ⟨1, 2⟩ }] [] { name := "", location := ⟨1, 2⟩ }
     (by decide) rfl⟩

/-- Claim C7: `GetDistance p p = 0` for every point, and
`GetDistance a b = GetDistance b a` for every pair (exactly, in the
idealized real-number model, hence within any floating-point tolerance). -/
theorem getDistance_self_zero_and_symm (p a b : Point) :
    GetDistance p p = 0 ∧ GetDistance a b = GetDistance b a :=
  ⟨getDistance_self p, getDistance_comm a b⟩

/-- Claim C8 counterexample: `ConvertToRadians` does not multiply by `π`:
at input `180` it returns the literal `3.1415926`, which is strictly
below `π`. -/
theorem convertToRadians_at_180_ne_pi :
    ConvertToRadians 180 ≠ 180 * Real.pi / 180 := by
  unfold ConvertToRadians
  intro h
  have h20 := Real.pi_gt_d20
  norm_num at h h20
  linarith

/-- Claim C8 (amended): `ConvertToRadians` is a pure function returning
the input multiplied by the literal constant `3.1415926` (an
approximation of `π` within `6·10⁻⁸`) and divided by `180`; consequently
it differs from `input · π / 180` by at most `|input| · 6·10⁻⁸ / 180`. -/
theorem convertToRadians_uses_pi_approx (x : ℝ) :
    ConvertToRadians x = x * 3.1415926 / 180 ∧
    |ConvertToRadians x - x * Real.pi / 180| ≤ |x| * (6 / 100000000) / 180 := by
  refine ⟨rfl, ?_⟩
  have habs : |(3.1415926 : ℝ) - Real.pi| ≤ 6 / 100000000 := by
    rw [abs_le]
    constructor
    · have h20 := Real.pi_lt_d20
      norm_num at h20 ⊢
      linarith
    · have h20 := Real.pi_gt_d20
      norm_num at h20 ⊢
      linarith
  have hd : ConvertToRadians x - x * Real.pi / 180 =
      x * ((3.1415926 - Real.pi) / 180) := by
    unfold ConvertToRadians; ring
  rw [hd, abs_mul]
  calc |x| * |(3.1415926 - Real.pi) / 180|
      = |x| * (|(3.1415926 : ℝ) - Real.pi| / 180) := by
        rw [abs_div, abs_of_pos (show (0 : ℝ) < 180 by norm_num)]
    _ ≤ |x| * ((6 / 100000000) / 180) := by
        gcongr
    _ = |x| * (6 / 100000000) / 180 := by ring

end RouteGuideSrv
